import Mathlib

/-!
Verification development for the thesis-defense scheduling engine
(`src/scheduler.py`, class `ThesisScheduler`).

The Python engine works on four pandas dataframes:
  * `request`: one row per defense request;
  * `lecturers`: one row per judge (code, expertise values, running
    `num_assignment` counter and `used_timeslot` list);
  * `lecturer_availability`: one row per judge with one boolean column per
    30-minute slot plus a stored `availability_count`;
  * `timeslots`: one row per slot with `parallel_capacity` occupancy columns
    (free cells hold the sentinel string "none").

The shallow embedding below mirrors those dataframes with Lean structures and
each scheduler method with a Lean function of the same name.  Slot keys
"YYYYMMDD_HHMM" are modelled as pairs (day ordinal, minute of day): the only
calendar operations the engine performs on them are chronological comparison
of the parsed datetimes (lexicographic on the pair) and adding 30 minutes.
-/

namespace ThesisSched

/-- A discrete 30-minute timeslot: (day ordinal, minute of day). -/
abbrev Slot := Nat × Nat

/-- `_get_next_timeslot`: the slot 30 minutes later (pandas Timedelta
arithmetic rolls over to the next day at midnight). -/
def nextTimeslot (s : Slot) : Slot :=
  if s.2 + 30 < 1440 then (s.1, s.2 + 30) else (s.1 + 1, s.2 + 30 - 1440)

/-- Chronological order of the datetimes the slot keys parse to. -/
def slotLE (a b : Slot) : Prop :=
  a.1 < b.1 ∨ (a.1 = b.1 ∧ a.2 ≤ b.2)

instance : DecidableRel slotLE := fun a b => by
  unfold slotLE; exact inferInstance

/-- `_sort_timeslots_chronologically` (Python `sorted` on the parsed keys). -/
def sortTimeslotsChronologically (l : List Slot) : List Slot :=
  List.insertionSort slotLE l

/-- Scheduler configuration: the required-slot-duration table. -/
structure Config where
  default_timeslot : Nat
  default_timeslot_sidang : Nat
  capstone_duration_2 : Nat
  capstone_duration_3 : Nat
  capstone_duration_4 : Nat
  capstone_duration_sidang_2 : Nat
  capstone_duration_sidang_3 : Nat
  capstone_duration_sidang_4 : Nat
deriving DecidableEq

/-- A row of the `lecturers` dataframe.  `expertise` collects the (non-null)
values of the expertise columns; `used_timeslot` starts empty (the initial
`pd.NaT` is read back as an empty list by every consumer). -/
structure Lecturer where
  kode_dosen : String
  expertise : List String
  num_assignment : Nat
  used_timeslot : List Slot
deriving DecidableEq

/-- A row of the `lecturer_availability` dataframe: `availTrue` is the set of
slot columns holding a truthy value, `availability_count` the stored count
column. -/
structure AvailRow where
  kode_dosen : String
  availability_count : Nat
  availTrue : List Slot
deriving DecidableEq

/-- A row of the `request` dataframe.  `label` is the dataframe index label of
the row, `rtype` the `type` column, `date_time` the committed start slot. -/
structure Request where
  label : Nat
  nim : String
  capstone_code : Option String
  rtype : String
  field_1 : Option String
  field_2 : Option String
  spv_1 : Option String
  spv_2 : Option String
  examiner_1 : Option String
  examiner_2 : Option String
  date_time : Option Slot
  status : Option String
deriving DecidableEq

/-- A row of the `timeslots` dataframe: the slot key plus the parallel
occupancy columns `slot_A`, `slot_B`, ... ("none" = free). -/
structure BoardRow where
  slot : Slot
  cols : List String
deriving DecidableEq

/-- The scheduler's whole mutable state (the `dataframes` dictionary plus the
`lect_pool` array captured at construction time).  `timeCols` lists the slot
columns of `lecturer_availability` in dataframe column order. -/
structure Sched where
  config : Config
  requests : List Request
  lecturers : List Lecturer
  lecturer_availability : List AvailRow
  timeslots : List BoardRow
  timeCols : List Slot
  lect_pool : List String
deriving DecidableEq

/-- Inner loop of `_get_consecutive_timeslots`: do the first `d` entries of the
(sorted) list form a chain of 30-minute successors?  The source only queries
positions `0 .. len - d`, so a tail shorter than `d` answers `false`. -/
def chainOk : Nat → List Slot → Bool
  | 0, _ => true
  | 1, _ => true
  | d + 2, x :: y :: rest => (nextTimeslot x == y) && chainOk (d + 1) (y :: rest)
  | _ + 2, _ => false

/-- The candidate start positions of `_get_consecutive_timeslots`, scanned over
an already sorted list. -/
def consecutiveStarts (d : Nat) : List Slot → List Slot
  | [] => []
  | x :: rest => (if chainOk d (x :: rest) then [x] else []) ++ consecutiveStarts d rest

/-- `_get_consecutive_timeslots`: starting slots with `required_duration`
consecutive members in `timeslots`. -/
def get_consecutive_timeslots (timeslots : List Slot) (required_duration : Nat) : List Slot :=
  if timeslots.isEmpty || required_duration == 0 then []
  else consecutiveStarts required_duration (sortTimeslotsChronologically timeslots)

/-- Lookup in the `lecturer_availability` dataframe by judge code. -/
def findAvailRow (st : Sched) (code : String) : Option AvailRow :=
  st.lecturer_availability.find? (fun a => a.kode_dosen == code)

/-- Lookup in the `lecturers` dataframe by judge code. -/
def findLecturer (st : Sched) (code : String) : Option Lecturer :=
  st.lecturers.find? (fun l => l.kode_dosen == code)

/-- The available slots of one judge, collected in dataframe column order. -/
def availableSlotsOf (st : Sched) (a : AvailRow) : List Slot :=
  st.timeCols.filter (fun c => a.availTrue.contains c)

/-- The value a role name denotes on a request row (`request[actor]`). -/
def actorCode (request : Request) (role : String) : Option String :=
  if role == "spv_1" then request.spv_1
  else if role == "spv_2" then request.spv_2
  else if role == "examiner_1" then request.examiner_1
  else if role == "examiner_2" then request.examiner_2
  else none

/-- The lecturer codes of the already-assigned actor roles (non-null only). -/
def assignedActorCodes (request : Request) (assigned_actors : List String) : List String :=
  assigned_actors.filterMap (fun role => actorCode request role)

/-- `_get_assigned_actor_availability`: starting slots where all assigned
actors are available for the full duration.  The source intersects Python
sets, whose iteration order is unspecified; it is modelled as an
order-preserving filter, and no theorem below depends on that order. -/
def get_assigned_actor_availability (st : Sched) (request : Request)
    (assigned_actors : List String) (required_duration : Nat) : List Slot :=
  if assigned_actors.isEmpty then
    get_consecutive_timeslots st.timeCols required_duration
  else
    let codes := assignedActorCodes request assigned_actors
    if codes.isEmpty then
      get_consecutive_timeslots st.timeCols required_duration
    else
      let perLecturer := codes.filterMap (fun c =>
        (findAvailRow st c).map (fun a =>
          get_consecutive_timeslots (availableSlotsOf st a) required_duration))
      match perLecturer with
      | [] => []
      | first :: others =>
          others.foldl (fun acc l => acc.filter (fun s => l.contains s)) first

/-- Lookup in the `timeslots` dataframe by slot key (first matching row). -/
def findBoardRow (board : List BoardRow) (s : Slot) : Option BoardRow :=
  board.find? (fun r => r.slot == s)

/-- `_is_timeslot_free`: the board row exists and some occupancy column is
"none" (a missing row answers `False`). -/
def is_timeslot_free (st : Sched) (s : Slot) : Bool :=
  match findBoardRow st.timeslots s with
  | none => false
  | some row => row.cols.any (fun c => c == "none")

/-- Loop body of `_get_free_timeslots`: all `d` consecutive slots from `s` are
free on the board. -/
def freeForDuration (st : Sched) : Slot → Nat → Bool
  | _, 0 => true
  | s, d + 1 => is_timeslot_free st s && freeForDuration st (nextTimeslot s) d

/-- `_get_free_timeslots`. -/
def get_free_timeslots (st : Sched) (assigned_availability : List Slot)
    (required_duration : Nat) : List Slot :=
  assigned_availability.filter (fun s => freeForDuration st s required_duration)

/-- Criteria-A inner loop of `_calculate_criteria_scores`: the judge's
availability row holds a truthy value on all `d` consecutive slot columns
starting at `s` (a slot that is not a column of the dataframe fails). -/
def availForDuration (st : Sched) (a : AvailRow) : Slot → Nat → Bool
  | _, 0 => true
  | s, d + 1 =>
      (st.timeCols.contains s && a.availTrue.contains s) &&
        availForDuration st a (nextTimeslot s) d

/-- `_check_same_field` / `_check_lecturer_expertise_match` core: does one of
the judge's expertise values equal `field_1` or `field_2` (null fields compare
as the empty string, a judge missing from `lecturers` never matches)? -/
def lecturerFieldMatch (st : Sched) (code : String)
    (field_1 field_2 : Option String) : Bool :=
  match findLecturer st code with
  | none => false
  | some l => l.expertise.any (fun e => e == field_1.getD "" || e == field_2.getD "")

/-- `_check_same_field`: keep only field-matching judges (the source's
"remove already assigned actors" loop inside this function is a no-op — its
body is `pass` — so the assigned-actor argument is dropped here; the actual
removal happens before the call, see `removeAssignedFromPool`). -/
def check_same_field (st : Sched) (pool : List String)
    (field_1 field_2 : Option String) : List String :=
  pool.filter (fun c => lecturerFieldMatch st c field_1 field_2)

/-- `_check_lecturer_expertise_match` (Round-2 expertise bonus test). -/
def check_lecturer_expertise_match (st : Sched) (code : String) (request : Request) : Bool :=
  lecturerFieldMatch st code request.field_1 request.field_2

/-- The per-candidate raw values computed by `_calculate_criteria_scores`
before ranking. -/
structure RawScore where
  kode_dosen : String
  criteria_a_matches : Nat
  matched_timeslots : List Slot
  criteria_b_assignments : Nat
  criteria_c_availability : Nat
  expertise_match : Bool
deriving DecidableEq

/-- Raw criteria values for one candidate: A = number of start slots (among
`available_timeslots`) the candidate covers for the full duration, B = the
candidate's `num_assignment`, C = the stored `availability_count`; the
matches counter and the matched-slot list grow together in the source, so
A is the length of `matched_timeslots`. -/
def rawScore (st : Sched) (available_timeslots : List Slot) (required_duration : Nat)
    (request : Request) (round_num : Nat) (code : String) : RawScore :=
  let ma := match findAvailRow st code with
    | none => ([], 0)
    | some a =>
        (available_timeslots.filter (fun s => availForDuration st a s required_duration),
         a.availability_count)
  let bCount := match findLecturer st code with
    | none => 0
    | some l => l.num_assignment
  { kode_dosen := code
    criteria_a_matches := ma.1.length
    matched_timeslots := ma.1
    criteria_b_assignments := bCount
    criteria_c_availability := ma.2
    expertise_match :=
      if round_num == 2 then check_lecturer_expertise_match st code request else false }

/-- pandas `rank(ascending=False, method='max')` of the A value: the number of
pool entries with at least as many matches (fewer matches rank higher). -/
def aScore (pool : List RawScore) (x : RawScore) : Nat :=
  (pool.filter (fun y => x.criteria_a_matches ≤ y.criteria_a_matches)).length

/-- pandas `rank(ascending=False, method='min')` of the B value: one plus the
number of pool entries with strictly more assignments. -/
def bScore (pool : List RawScore) (x : RawScore) : Nat :=
  1 + (pool.filter (fun y => x.criteria_b_assignments < y.criteria_b_assignments)).length

/-- pandas `rank(ascending=False, method='min')` of the C value. -/
def cScore (pool : List RawScore) (x : RawScore) : Nat :=
  1 + (pool.filter (fun y => x.criteria_c_availability < y.criteria_c_availability)).length

/-- Total score `criteria_a_score + 4 * criteria_b_score + criteria_c_score`,
doubled in Round 2 for candidates whose expertise matches. -/
def totalScore (round_num : Nat) (pool : List RawScore) (x : RawScore) : Nat :=
  let base := aScore pool x + 4 * bScore pool x + cScore pool x
  if round_num == 2 && x.expertise_match then 2 * base else base

/-- A ranked candidate row (raw values plus `total_score`). -/
structure ScoreRow extends RawScore where
  total_score : Nat
deriving DecidableEq

/-- The candidates that survive the `criteria_a_matches > 0` filter of
`_calculate_criteria_scores`. -/
def keptScores (st : Sched) (pool : List String) (available_timeslots : List Slot)
    (required_duration : Nat) (request : Request) (round_num : Nat) : List RawScore :=
  (pool.map (rawScore st available_timeslots required_duration request round_num)).filter
    (fun x => 0 < x.criteria_a_matches)

/-- `_calculate_criteria_scores`: drop zero-match candidates, then score the
survivors by ranking within the surviving set. -/
def calculate_criteria_scores (st : Sched) (pool : List String)
    (available_timeslots : List Slot) (required_duration : Nat)
    (request : Request) (round_num : Nat) : List ScoreRow :=
  let kept := keptScores st pool available_timeslots required_duration request round_num
  kept.map (fun x => { toRawScore := x, total_score := totalScore round_num kept x })

/-- Descending order on `total_score` (`sort_values('total_score', ascending=False)`). -/
def scoreGE (a b : ScoreRow) : Prop := b.total_score ≤ a.total_score

instance : DecidableRel scoreGE := fun a b => by
  unfold scoreGE; exact inferInstance

instance : IsTotal ScoreRow scoreGE where
  total a b := le_total b.total_score a.total_score

instance : IsTrans ScoreRow scoreGE where
  trans _ _ _ hab hbc := le_trans hbc hab

/-- Sort candidate rows by descending total score. -/
def sortByScore (l : List ScoreRow) : List ScoreRow :=
  List.insertionSort scoreGE l

/-- `request_id` as passed around the scheduler: a single student id or the
list of ids of a capstone group. -/
inductive RequestId where
  | single (nim : String)
  | group (nims : List String)
deriving DecidableEq

/-- Rows of the same capstone group, in dataframe order. -/
def capstoneGroup (st : Sched) (code : String) : List Request :=
  st.requests.filter (fun r => r.capstone_code == some code)

/-- One field of the consistency condition of `_verify_capstone_integrity`.
The field passes when (pandas clause 1) all values are null, or (clause 2) all
values are non-null and equal to the first row's value, or (clause 3) the
`isna` mask of the column equals a fresh all-False Series — which in pandas
compares the values AND the index, so it holds exactly when the first row's
value is non-null, the group's index labels are `0 .. n-1`, and every value is
non-null, regardless of whether the values agree. -/
def fieldConsistent (group : List Request) (f : Request → Option String) : Bool :=
  match group with
  | [] => true
  | ref :: _ =>
    let values := group.map f
    values.all (fun v => v.isNone) ||
    (match f ref with
     | some v => values.all (fun x => x == some v)
     | none => false) ||
    (match f ref with
     | some _ =>
         (group.map (fun r => r.label) == List.range group.length) &&
           values.all (fun v => v.isSome)
     | none => false)

/-- The request fields checked by `_verify_capstone_integrity`, in source
order. -/
def integrityFields : List (String × (Request → Option String)) :=
  [("spv_1", Request.spv_1), ("spv_2", Request.spv_2),
   ("examiner_1", Request.examiner_1), ("examiner_2", Request.examiner_2),
   ("field_1", Request.field_1), ("field_2", Request.field_2)]

/-- `_verify_capstone_integrity`: raise on the first inconsistent field. -/
def verify_capstone_integrity (group : List Request) (capstone_code : String) :
    Except String Unit :=
  match integrityFields.find? (fun p => ! fieldConsistent group p.2) with
  | some p =>
      Except.error ("Capstone group " ++ capstone_code ++ " has inconsistent " ++
        p.1 ++ " values")
  | none => Except.ok ()

/-- `_check_capstone`: capstone status and request id, after verifying group
integrity (which may raise). -/
def check_capstone (st : Sched) (request : Request) :
    Except String (Option String × RequestId) :=
  match request.capstone_code with
  | some code =>
      match verify_capstone_integrity (capstoneGroup st code) code with
      | Except.error e => Except.error e
      | Except.ok _ =>
          Except.ok (some code, RequestId.group ((capstoneGroup st code).map (fun r => r.nim)))
  | none => Except.ok (none, RequestId.single request.nim)

/-- The student id whose request row supplies the event type
(`request_id` itself, or `request_id[0]` for a group). -/
def firstNimOf : RequestId → String
  | RequestId.single n => n
  | RequestId.group ns => ns.headD ""

/-- `_check_timeslot_needed`: required duration from the config table, keyed by
event type and group size. -/
def check_timeslot_needed (requests : List Request) (config : Config)
    (request_id : RequestId) : Nat :=
  match requests.find? (fun r => r.nim == firstNimOf request_id) with
  | none => config.default_timeslot
  | some row =>
    match request_id with
    | RequestId.single _ =>
        if row.rtype == "Sidang Akhir" then config.default_timeslot_sidang
        else config.default_timeslot
    | RequestId.group ns =>
        if row.rtype == "Sidang Akhir" then
          if ns.length == 2 then config.capstone_duration_sidang_2
          else if ns.length == 3 then config.capstone_duration_sidang_3
          else if ns.length == 4 then config.capstone_duration_sidang_4
          else config.default_timeslot_sidang
        else
          if ns.length == 2 then config.capstone_duration_2
          else if ns.length == 3 then config.capstone_duration_3
          else if ns.length == 4 then config.capstone_duration_4
          else config.default_timeslot

/-- `_check_list_actor`: (assigned roles, to-be-assigned roles). -/
def check_list_actor (request : Request) : List String × List String :=
  ((if request.spv_1.isSome then ["spv_1"] else []) ++
     (if request.spv_2.isSome then ["spv_2"] else []),
   (if request.examiner_1.isNone then ["examiner_1"] else []) ++
     (if request.examiner_2.isNone then ["examiner_2"] else []))

/-- `_rank_lecturer`: recompute the request id and duration, build the common
availability of the assigned actors, intersect with board-free slots, score the
pool and sort it by descending total score. -/
def rank_lecturer (st : Sched) (pool : List String) (request : Request)
    (assigned_actors : List String) (round_num : Nat) :
    Except String (List Slot × List ScoreRow) :=
  match check_capstone st request with
  | Except.error e => Except.error e
  | Except.ok (_, request_id) =>
    let required_duration := check_timeslot_needed st.requests st.config request_id
    let assigned_avail :=
      get_assigned_actor_availability st request assigned_actors required_duration
    let available_timeslots := get_free_timeslots st assigned_avail required_duration
    let scored :=
      calculate_criteria_scores st pool available_timeslots required_duration request round_num
    if scored.isEmpty then Except.ok (assigned_avail, scored)
    else Except.ok (assigned_avail, sortByScore scored)

/-- `len([role for role in ['examiner_1','examiner_2'] if isna(current[role])])`. -/
def numExaminersNeeded (request : Request) : Nat :=
  (if request.examiner_1.isNone then 1 else 0) +
    (if request.examiner_2.isNone then 1 else 0)

/-- The examiner codes and start slot `_assign_actor` settles on; `none`
models the early `return False` paths (empty pool, or a Round-1 attempt that
cannot fill both examiner seats). -/
structure Selection where
  examiner_codes : List String
  assigned_datetime : Option Slot
deriving DecidableEq

/-- The selection phase of `_assign_actor` (lines before any mutation): sort
candidates by descending score, bail out in Round 1 unless exactly two
examiners are needed and at least two candidates exist, take the top
`needed` candidates and the first matched slot of the best one. -/
def selectExaminers (request : Request) (ranked : List ScoreRow) (round_num : Nat) :
    Option Selection :=
  if ranked.isEmpty then none
  else
    let sorted := sortByScore ranked
    let needed := numExaminersNeeded request
    if needed == 0 then
      match sorted with
      | [] => none
      | best :: _ =>
          some { examiner_codes := [], assigned_datetime := best.matched_timeslots.head? }
    else
      if round_num == 1 && needed < 2 then none
      else if round_num == 1 && sorted.length < 2 then none
      else
        match sorted.take needed with
        | [] => none
        | first :: restSel =>
            some { examiner_codes := (first :: restSel).map (fun r => r.kode_dosen)
                   assigned_datetime := first.matched_timeslots.head? }

/-- The status string `_assign_actor` writes. -/
def statusFor (needed : Nat) (round_num : Nat) : String :=
  if needed == 0 then "Time Match Only (Examiner Already Assigned)"
  else if round_num == 1 then "Time and Expertise Match" else "Time Match Only"

/-- The capstone code used for the request-row mask: the source guards it with
Python truthiness, so an empty-string code falls back to the nim mask. -/
def capstoneMaskCode (current : Request) : Option String :=
  match current.capstone_code with
  | some c => if c == "" then none else some c
  | none => none

/-- The request-row mask of `_assign_actor` / `_reset_partial_assignment`. -/
def requestMask (current : Request) (r : Request) : Bool :=
  match capstoneMaskCode current with
  | some c => r.capstone_code == some c
  | none => r.nim == current.nim

/-- Which examiner columns `_assign_actor` writes, driven by the null state of
the `current_request` row it was handed: `examiner_1` gets `codes[0]` when
empty, `examiner_2` gets the next unused code when empty and available. -/
def examinerWrites (current : Request) (codes : List String) :
    Option String × Option String :=
  if codes.isEmpty then (none, none)
  else if current.examiner_1.isNone then
    (codes.get? 0, if current.examiner_2.isNone then codes.get? 1 else none)
  else
    (none, if current.examiner_2.isNone then codes.get? 0 else none)

/-- Apply `_assign_actor`'s writes to one masked request row: examiner columns
per `examinerWrites`, then `date_time` and `status` unconditionally. -/
def applyAssignment (current : Request) (codes : List String) (dt : Option Slot)
    (status : String) (r : Request) : Request :=
  let w := examinerWrites current codes
  { r with
    examiner_1 := match w.1 with | some c => some c | none => r.examiner_1
    examiner_2 := match w.2 with | some c => some c | none => r.examiner_2
    date_time := dt
    status := some status }

/-- Write `name` into the first "none" cell; `none` when every cell is taken. -/
def writeFirstFree (name : String) : List String → Option (List String)
  | [] => none
  | c :: cs =>
      if c == "none" then some (name :: cs)
      else (writeFirstFree name cs).map (fun cs2 => c :: cs2)

/-- Reserve one board slot: find the first row with this slot key and write
into its first free column; `none` when the row is missing or full (both make
the reservation loop break). -/
def boardReserveAt (board : List BoardRow) (s : Slot) (name : String) :
    Option (List BoardRow) :=
  match board with
  | [] => none
  | r :: rs =>
      if r.slot == s then
        (writeFirstFree name r.cols).map (fun cols2 => { r with cols := cols2 } :: rs)
      else
        (boardReserveAt rs s name).map (fun rs2 => r :: rs2)

/-- `_assign_consecutive_timeslots`: reserve `duration` slots walking in
30-minute steps with the date part held fixed (the source recomputes only the
time string, so a run crossing midnight simply finds no further rows and
breaks). -/
def assign_consecutive_timeslots (board : List BoardRow) (day : Nat) (startMin : Nat)
    (duration : Nat) (name : String) : List BoardRow :=
  match duration with
  | 0 => board
  | d + 1 =>
    match boardReserveAt board (day, startMin) name with
    | none => board
    | some board2 => assign_consecutive_timeslots board2 day (startMin + 30) d name

/-- Clear the first cell equal to `name` (inner loop of the revert). -/
def clearFirstMatch (name : String) : List String → List String
  | [] => []
  | c :: cs => if c == name then "none" :: cs else c :: clearFirstMatch name cs

/-- Clear one board slot's cell holding `name` (missing rows are skipped). -/
def boardClearAt (board : List BoardRow) (s : Slot) (name : String) : List BoardRow :=
  match board with
  | [] => []
  | r :: rs =>
      if r.slot == s then { r with cols := clearFirstMatch name r.cols } :: rs
      else r :: boardClearAt rs s name

/-- `_revert_consecutive_timeslots`: clear `duration` slots, never breaking. -/
def revert_consecutive_timeslots (board : List BoardRow) (day : Nat) (startMin : Nat)
    (duration : Nat) (name : String) : List BoardRow :=
  match duration with
  | 0 => board
  | d + 1 =>
      revert_consecutive_timeslots (boardClearAt board (day, startMin) name) day
        (startMin + 30) d name

/-- The lecturer-row update of `_assign_actor`: append the assigned start slot
to `used_timeslot` unless already present, then recompute `num_assignment` as
the list's length. -/
def updateLecturerAssign (dt : Option Slot) (l : Lecturer) : Lecturer :=
  let used2 := match dt with
    | some s => if l.used_timeslot.contains s then l.used_timeslot else l.used_timeslot ++ [s]
    | none => l.used_timeslot
  { l with used_timeslot := used2, num_assignment := used2.length }

/-- The lecturer-row update of `_reset_partial_assignment`: remove the slot
when present and recompute the counter; otherwise leave the row alone. -/
def updateLecturerReset (dt : Option Slot) (l : Lecturer) : Lecturer :=
  match dt with
  | some s =>
      if l.used_timeslot.contains s then
        let used2 := l.used_timeslot.filter (fun x => x ≠ s)
        { l with used_timeslot := used2, num_assignment := used2.length }
      else l
  | none => l

/-- Update the first lecturer row with the given code (the source indexes
`lecturer_mask.index[0]`; a missing code changes nothing). -/
def updateFirstLecturer (f : Lecturer → Lecturer) (code : String) :
    List Lecturer → List Lecturer
  | [] => []
  | l :: ls =>
      if l.kode_dosen == code then f l :: ls
      else l :: updateFirstLecturer f code ls

/-- `_assign_actor`: select examiners, then mutate the request rows, the board
and the lecturer rows; returns the new state and the success flag. -/
def assign_actor (st : Sched) (current : Request) (ranked : List ScoreRow)
    (request_id : RequestId) (round_num : Nat) : Sched × Bool :=
  match selectExaminers current ranked round_num with
  | none => (st, false)
  | some sel =>
    let status := statusFor (numExaminersNeeded current) round_num
    let requests2 := st.requests.map (fun r =>
      if requestMask current r then
        applyAssignment current sel.examiner_codes sel.assigned_datetime status r
      else r)
    let st2 := { st with requests := requests2 }
    let st3 :=
      match sel.assigned_datetime with
      | none => st2
      | some s =>
        let required := check_timeslot_needed st2.requests st2.config request_id
        let name := match current.capstone_code with
          | some c => c
          | none => current.nim
        { st2 with
          timeslots := assign_consecutive_timeslots st2.timeslots s.1 s.2 required name }
    let lecturers2 := sel.examiner_codes.foldl
      (fun ls code => updateFirstLecturer (updateLecturerAssign sel.assigned_datetime) code ls)
      st3.lecturers
    ({ st3 with lecturers := lecturers2 }, true)

/-- `_reset_partial_assignment`: clear the examiner, slot and status columns of
every masked request row, revert the board reservation (the duration is
recomputed through `_check_capstone` inside a try/except, so an integrity
error at this point silently skips the board revert), and remove the slot from
each assigned examiner's row. -/
def reset_partial_assignment (st : Sched) (current : Request) : Sched :=
  let assigned_examiners :=
    (match current.examiner_1 with | some c => [c] | none => []) ++
      (match current.examiner_2 with | some c => [c] | none => [])
  let requests2 := st.requests.map (fun r =>
    if requestMask current r then
      { r with examiner_1 := none, examiner_2 := none, date_time := none, status := none }
    else r)
  let st2 := { st with requests := requests2 }
  let st3 :=
    match current.date_time with
    | none => st2
    | some s =>
      match check_capstone st2 current with
      | Except.error _ => st2
      | Except.ok (_, request_id) =>
        let required := check_timeslot_needed st2.requests st2.config request_id
        let name := match current.capstone_code with
          | some c => c
          | none => current.nim
        { st2 with
          timeslots := revert_consecutive_timeslots st2.timeslots s.1 s.2 required name }
  let lecturers2 := assigned_examiners.foldl
    (fun ls code => updateFirstLecturer (updateLecturerReset current.date_time) code ls)
    st3.lecturers
  { st3 with lecturers := lecturers2 }

/-- Pool cleanup at the top of Round 1: drop each assigned actor's code from
the captured lecturer pool. -/
def removeAssignedFromPool (request : Request) (assigned_actors : List String)
    (pool : List String) : List String :=
  assigned_actors.foldl (fun p role =>
    match actorCode request role with
    | some name => if p.contains name then p.filter (fun x => x ≠ name) else p
    | none => p) pool

/-- The Round-1 body for one request that passed the skip checks: integrity
check, pool construction, strict field filter, ranking, assignment, and — when
afterwards both examiner columns are not filled — the rollback. -/
def round1Attempt (st : Sched) (processed : List String) (request : Request) :
    Except String (Sched × List String) :=
  match check_capstone st request with
  | Except.error e => Except.error e
  | Except.ok (_, request_id) =>
    let assigned_actors := (check_list_actor request).1
    let pool1 := removeAssignedFromPool request assigned_actors st.lect_pool
    let pool2 := check_same_field st pool1 request.field_1 request.field_2
    if pool2.isEmpty then Except.ok (st, processed)
    else
      match rank_lecturer st pool2 request assigned_actors 1 with
      | Except.error e => Except.error e
      | Except.ok (_, ranked) =>
        let res := assign_actor st request ranked request_id 1
        let updated := (res.1.requests.find? (fun r => r.label == request.label)).getD request
        if updated.examiner_1.isSome && updated.examiner_2.isSome && res.2 then
          Except.ok (res.1, processed)
        else
          Except.ok (reset_partial_assignment res.1 updated, processed)

/-- Round-1 processing of one snapshot row: skip already-scheduled rows and
already-processed capstone groups (the group id is recorded before the
attempt). -/
def processRound1 (st : Sched) (processed : List String) (request : Request) :
    Except String (Sched × List String) :=
  if request.date_time.isSome then Except.ok (st, processed)
  else
    match request.capstone_code with
    | some code =>
        if processed.contains code then Except.ok (st, processed)
        else round1Attempt st (processed ++ [code]) request
    | none => round1Attempt st processed request

/-- Round 1 iterates over the snapshot of the request rows taken when the loop
starts, threading the mutated state. -/
def round1Loop : List Request → Sched → List String → Except String Sched
  | [], st, _ => Except.ok st
  | r :: rs, st, processed =>
    match processRound1 st processed r with
    | Except.error e => Except.error e
    | Except.ok (st2, p2) => round1Loop rs st2 p2

/-- Round 1 over the whole request dataframe. -/
def round1 (st : Sched) : Except String Sched :=
  round1Loop st.requests st []

/-- Round-2 processing of one snapshot row: skip scheduled rows; otherwise rank
the FULL captured pool (no field filter, and no removal of assigned actors)
and assign, with no rollback. -/
def processRound2 (st : Sched) (request : Request) : Except String Sched :=
  if request.date_time.isSome then Except.ok st
  else
    match check_capstone st request with
    | Except.error e => Except.error e
    | Except.ok (_, request_id) =>
      let assigned_actors := (check_list_actor request).1
      if st.lect_pool.isEmpty then Except.ok st
      else
        match rank_lecturer st st.lect_pool request assigned_actors 2 with
        | Except.error e => Except.error e
        | Except.ok (_, ranked) =>
          Except.ok (assign_actor st request ranked request_id 2).1

/-- Round 2 loop over the snapshot taken when Round 2 starts. -/
def round2Loop : List Request → Sched → Except String Sched
  | [], st => Except.ok st
  | r :: rs, st =>
    match processRound2 st r with
    | Except.error e => Except.error e
    | Except.ok st2 => round2Loop rs st2

/-- Round 2 over the whole request dataframe. -/
def round2 (st : Sched) : Except String Sched :=
  round2Loop st.requests st

/-- `ThesisScheduler.run`: Round 1, then (optionally) Round 2. -/
def run (st : Sched) (round2_enabled : Bool) : Except String Sched :=
  match round1 st with
  | Except.error e => Except.error e
  | Except.ok st1 => if round2_enabled then round2 st1 else Except.ok st1

/-! ### Concrete scenario states used by counterexamples and witnesses -/

/-- A request row with every optional column null. -/
def baseRequest : Request :=
  { label := 0, nim := "", capstone_code := none, rtype := "Proposal",
    field_1 := none, field_2 := none, spv_1 := none, spv_2 := none,
    examiner_1 := none, examiner_2 := none, date_time := none, status := none }

/-- Config with individual proposal duration 2. -/
def cfgD2 : Config :=
  { default_timeslot := 2, default_timeslot_sidang := 3,
    capstone_duration_2 := 4, capstone_duration_3 := 4, capstone_duration_4 := 5,
    capstone_duration_sidang_2 := 4, capstone_duration_sidang_3 := 5,
    capstone_duration_sidang_4 := 6 }

/-- Config with individual proposal duration 1. -/
def cfgD1 : Config :=
  { default_timeslot := 1, default_timeslot_sidang := 1,
    capstone_duration_2 := 2, capstone_duration_3 := 2, capstone_duration_4 := 2,
    capstone_duration_sidang_2 := 2, capstone_duration_sidang_3 := 2,
    capstone_duration_sidang_4 := 2 }

/-- Slots 09:00, 09:30, 10:00, 10:30 of one day. -/
def cx1Cols : List Slot := [(0, 540), (0, 570), (0, 600), (0, 630)]

/-- Two individual proposal requests (duration 2) and judges J1, J2 available
all day, with a board of capacity 2; the second request's supervisor S2 is
only available from 09:30 on, pushing its event to start at 09:30 while both
judges are already committed to the 09:00-10:00 range of the first event. -/
def cx1St : Sched :=
  { config := cfgD2
    requests :=
      [ { baseRequest with label := 0, nim := "A1", field_1 := some "F", field_2 := some "F" },
        { baseRequest with
          label := 1
          nim := "A2"
          field_1 := some "F"
          field_2 := some "F"
          spv_1 := some "S2" } ]
    lecturers :=
      [ { kode_dosen := "J1", expertise := ["F"], num_assignment := 0, used_timeslot := [] },
        { kode_dosen := "J2", expertise := ["F"], num_assignment := 0, used_timeslot := [] },
        { kode_dosen := "S2", expertise := ["G"], num_assignment := 0, used_timeslot := [] } ]
    lecturer_availability :=
      [ { kode_dosen := "J1", availability_count := 4, availTrue := cx1Cols },
        { kode_dosen := "J2", availability_count := 4, availTrue := cx1Cols },
        { kode_dosen := "S2", availability_count := 3,
          availTrue := [(0, 570), (0, 600), (0, 630)] } ]
    timeslots := cx1Cols.map (fun s => { slot := s, cols := ["none", "none"] })
    timeCols := cx1Cols
    lect_pool := ["J1", "J2", "S2"] }

/-- The two committed start slots overlap in time when each spans `d`
consecutive 30-minute slots. -/
def chainSlots (s : Slot) (d : Nat) : List Slot :=
  (List.range d).map (fun j => nextTimeslot^[j] s)

/-- Two `d`-slot ranges share a slot. -/
def slotRangesOverlap (d : Nat) (a b : Slot) : Bool :=
  (chainSlots a d).any (fun s => (chainSlots b d).contains s)

/-- A request that enters Round 1 with examiner_1 pre-filled by upstream data;
its supervisor S and examiner E have no availability, so the Round-1 attempt
fails before committing anything. -/
def cx2Req : Request :=
  { baseRequest with
    label := 0
    nim := "A"
    field_1 := some "F"
    field_2 := some "F"
    spv_1 := some "S"
    examiner_1 := some "E" }

/-- State for the Round-1 rollback counterexample. -/
def cx2St : Sched :=
  { config := cfgD2
    requests := [cx2Req]
    lecturers :=
      [ { kode_dosen := "S", expertise := ["F"], num_assignment := 0, used_timeslot := [] },
        { kode_dosen := "E", expertise := ["F"], num_assignment := 0, used_timeslot := [] },
        { kode_dosen := "L2", expertise := ["F"], num_assignment := 0, used_timeslot := [] } ]
    lecturer_availability :=
      [ { kode_dosen := "S", availability_count := 0, availTrue := [] },
        { kode_dosen := "E", availability_count := 0, availTrue := [] },
        { kode_dosen := "L2", availability_count := 1, availTrue := [(0, 540)] } ]
    timeslots := [ { slot := (0, 540), cols := ["none"] } ]
    timeCols := [(0, 540)]
    lect_pool := ["S", "E", "L2"] }

/-- Individual request (duration 1) with supervisor S; candidate L1 is only
available at 09:00, candidate L2 only from 09:30. -/
def cx3Req : Request :=
  { baseRequest with
    label := 0
    nim := "B"
    field_1 := some "F"
    field_2 := some "F"
    spv_1 := some "S" }

/-- State for the slot-selection counterexample: both L1 and L2 get selected as
examiners, and the committed slot is taken from L1's matched list only. -/
def cx3St : Sched :=
  { config := cfgD1
    requests := [cx3Req]
    lecturers :=
      [ { kode_dosen := "S", expertise := ["X"], num_assignment := 0, used_timeslot := [] },
        { kode_dosen := "L1", expertise := ["F"], num_assignment := 0, used_timeslot := [] },
        { kode_dosen := "L2", expertise := ["F"], num_assignment := 0, used_timeslot := [] } ]
    lecturer_availability :=
      [ { kode_dosen := "S", availability_count := 2, availTrue := [(0, 540), (0, 570)] },
        { kode_dosen := "L1", availability_count := 1, availTrue := [(0, 540)] },
        { kode_dosen := "L2", availability_count := 2, availTrue := [(0, 570), (0, 600)] } ]
    timeslots :=
      [ { slot := (0, 540), cols := ["none"] },
        { slot := (0, 570), cols := ["none"] },
        { slot := (0, 600), cols := ["none"] } ]
    timeCols := [(0, 540), (0, 570), (0, 600)]
    lect_pool := ["S", "L1", "L2"] }

/-- Individual request whose supervisor S is the only field-matching judge:
Round 1 finds an empty field-filtered pool, Round 2 ranks the full pool
without removing S. -/
def cx4Req : Request :=
  { baseRequest with
    label := 0
    nim := "A"
    field_1 := some "F"
    field_2 := some "F"
    spv_1 := some "S" }

/-- State for the Round-2 supervisor-as-examiner failing input. -/
def cx4St : Sched :=
  { config := cfgD1
    requests := [cx4Req]
    lecturers :=
      [ { kode_dosen := "S", expertise := ["F"], num_assignment := 0, used_timeslot := [] },
        { kode_dosen := "J", expertise := ["G"], num_assignment := 0, used_timeslot := [] } ]
    lecturer_availability :=
      [ { kode_dosen := "S", availability_count := 1, availTrue := [(0, 540)] },
        { kode_dosen := "J", availability_count := 1, availTrue := [(0, 540)] } ]
    timeslots := [ { slot := (0, 540), cols := ["none"] } ]
    timeCols := [(0, 540)]
    lect_pool := ["S", "J"] }

/-- A capstone group occupying dataframe labels 0 and 1 whose members disagree
on `field_1` while every checked field is non-null. -/
def cx6Group : List Request :=
  [ { baseRequest with
      label := 0
      nim := "C1"
      capstone_code := some "G"
      field_1 := some "F"
      field_2 := some "F2"
      spv_1 := some "S"
      spv_2 := some "T"
      examiner_1 := some "E1"
      examiner_2 := some "E2" },
    { baseRequest with
      label := 1
      nim := "C2"
      capstone_code := some "G"
      field_1 := some "H"
      field_2 := some "F2"
      spv_1 := some "S"
      spv_2 := some "T"
      examiner_1 := some "E1"
      examiner_2 := some "E2" } ]

/-- State holding only the inconsistent capstone group. -/
def cx6St : Sched :=
  { config := cfgD1, requests := cx6Group, lecturers := [],
    lecturer_availability := [], timeslots := [], timeCols := [], lect_pool := [] }

/-- Minimal state for the duration witness: one all-empty request and an empty
judge pool. -/
def cx2wReq : Request := { baseRequest with label := 0, nim := "W" }

/-- State for the duration witness. -/
def cx2wSt : Sched :=
  { config := cfgD2, requests := [cx2wReq], lecturers := [],
    lecturer_availability := [], timeslots := [], timeCols := [], lect_pool := [] }

/-- First member of an all-empty capstone pair (for the amended-rollback
witness, exercising the capstone path). -/
def cx2cReqA : Request :=
  { baseRequest with label := 0, nim := "WA", capstone_code := some "K" }

/-- Second member of the all-empty capstone pair. -/
def cx2cReqB : Request :=
  { baseRequest with label := 1, nim := "WB", capstone_code := some "K" }

/-- State for the amended-rollback witness: a consistent all-empty capstone
group and an empty judge pool. -/
def cx2cSt : Sched :=
  { config := cfgD2, requests := [cx2cReqA, cx2cReqB], lecturers := [],
    lecturer_availability := [], timeslots := [], timeCols := [], lect_pool := [] }

/-- State whose only request is already scheduled (for the Round-2
idempotence witness). -/
def cx9St : Sched :=
  { config := cfgD2
    requests := [{ baseRequest with nim := "Z", date_time := some (0, 540) }]
    lecturers := []
    lecturer_availability := []
    timeslots := [ { slot := (0, 540), cols := ["none"] } ]
    timeCols := [(0, 540)]
    lect_pool := [] }

/-! ### Definitions used only in theorem statements -/

/-- Group size carried by a request id (`none` for an individual request). -/
def groupSizeOf : RequestId → Option Nat
  | RequestId.single _ => none
  | RequestId.group ns => some ns.length

/-- The duration table exactly as the specification words it: an individual
request gets the configured default for its event type, a capstone group of
size 2, 3 or 4 the configured per-size duration for its type, and any other
group size falls back to the individual default for its type. -/
def specDuration (config : Config) (etype : String) (gsize : Option Nat) : Nat :=
  let indiv :=
    if etype = "Sidang Akhir" then config.default_timeslot_sidang
    else config.default_timeslot
  match gsize with
  | none => indiv
  | some 2 =>
      if etype = "Sidang Akhir" then config.capstone_duration_sidang_2
      else config.capstone_duration_2
  | some 3 =>
      if etype = "Sidang Akhir" then config.capstone_duration_sidang_3
      else config.capstone_duration_3
  | some 4 =>
      if etype = "Sidang Akhir" then config.capstone_duration_sidang_4
      else config.capstone_duration_4
  | some _ => indiv

/-- Number of occupied parallel columns of a board row. -/
def occupiedCount (r : BoardRow) : Nat :=
  (r.cols.filter (fun c => c ≠ "none")).length

/-- A board row evolves without overwriting: the slot key is unchanged, the
column count is unchanged, and every cell that held an occupant label keeps
it. -/
def rowPreserved (r r2 : BoardRow) : Prop :=
  r2.slot = r.slot ∧ r2.cols.length = r.cols.length ∧
    ∀ j, r.cols.get? j ≠ some "none" → r2.cols.get? j = r.cols.get? j

/-- The judge-row invariant: the workload counter equals the length of the
committed-slot list. -/
def lecturerCountInv (l : Lecturer) : Prop :=
  l.num_assignment = l.used_timeslot.length

/-! ### Theorems -/

theorem round2Loop_all_scheduled (l : List Request) (st : Sched)
    (h : ∀ r ∈ l, r.date_time.isSome) : round2Loop l st = Except.ok st := by
  induction l with
  | nil => rfl
  | cons r rs ih =>
      have hr : r.date_time.isSome = true := h r (by simp)
      simp only [round2Loop, processRound2, hr, if_true]
      exact ih fun x hx => h x (by simp [hx])

/-- Claim C9: when every request already has `date_time` set, Round 2 performs
zero mutations — the final state (request rows, board, judges) is exactly the
input state. -/
theorem claim_C9_round2_idempotent (st : Sched)
    (h : ∀ r ∈ st.requests, r.date_time.isSome) : round2 st = Except.ok st := by
  unfold round2
  exact round2Loop_all_scheduled st.requests st h

theorem claim_C9_witness : round2 cx9St = Except.ok cx9St :=
  claim_C9_round2_idempotent cx9St (by decide)

theorem updateLecturerAssign_inv (dt : Option Slot) (l : Lecturer) :
    lecturerCountInv (updateLecturerAssign dt l) := by
  unfold lecturerCountInv updateLecturerAssign
  cases dt <;> simp

theorem updateLecturerReset_inv (dt : Option Slot) (l : Lecturer)
    (h : lecturerCountInv l) : lecturerCountInv (updateLecturerReset dt l) := by
  unfold updateLecturerReset
  cases dt with
  | none => exact h
  | some s =>
      by_cases hc : l.used_timeslot.contains s
      · simp only [hc, if_true]
        unfold lecturerCountInv
        simp
      · simp only [hc, if_false]
        exact h

theorem updateFirstLecturer_inv (f : Lecturer → Lecturer)
    (hf : ∀ l, lecturerCountInv l → lecturerCountInv (f l)) (code : String)
    (ls : List Lecturer) (h : ∀ l ∈ ls, lecturerCountInv l) :
    ∀ l2 ∈ updateFirstLecturer f code ls, lecturerCountInv l2 := by
  induction ls with
  | nil => intro l2 h2; cases h2
  | cons l ls ih =>
      intro l2 h2
      simp only [updateFirstLecturer] at h2
      split at h2
      · rcases List.mem_cons.mp h2 with h2 | h2
        · subst h2; exact hf l (h l (by simp))
        · exact h l2 (by simp [h2])
      · rcases List.mem_cons.mp h2 with h2 | h2
        · subst h2; exact h l2 (by simp)
        · exact ih (fun x hx => h x (by simp [hx])) l2 h2

theorem foldl_updateFirst_inv (f : Lecturer → Lecturer)
    (hf : ∀ l, lecturerCountInv l → lecturerCountInv (f l)) (codes : List String) :
    ∀ ls, (∀ l ∈ ls, lecturerCountInv l) →
      ∀ l2 ∈ codes.foldl (fun acc c => updateFirstLecturer f c acc) ls,
        lecturerCountInv l2 := by
  induction codes with
  | nil => intro ls h l2 h2; exact h l2 h2
  | cons c cs ih =>
      intro ls h
      exact ih _ (updateFirstLecturer_inv f hf c ls h)

/-- Claim C10: the lecturer-row updates of `_assign_actor` and of
`_reset_partial_assignment` both maintain `num_assignment = len(used_timeslot)`
(recomputing the counter from the list whenever they touch a row), so a judge
pool satisfying the invariant still satisfies it after every assignment and
every rollback. -/
theorem claim_C10_counter_matches_list (ls : List Lecturer) (codes : List String)
    (dt : Option Slot) (h : ∀ l ∈ ls, lecturerCountInv l) :
    (∀ l2 ∈ codes.foldl
        (fun acc c => updateFirstLecturer (updateLecturerAssign dt) c acc) ls,
        lecturerCountInv l2) ∧
    (∀ l2 ∈ codes.foldl
        (fun acc c => updateFirstLecturer (updateLecturerReset dt) c acc) ls,
        lecturerCountInv l2) :=
  ⟨foldl_updateFirst_inv _ (fun l _ => updateLecturerAssign_inv dt l) codes ls h,
   foldl_updateFirst_inv _ (fun l hl => updateLecturerReset_inv dt l hl) codes ls h⟩

theorem claim_C10_witness :
    lecturerCountInv
      (([ "J" ].foldl
        (fun acc c => updateFirstLecturer (updateLecturerAssign (some (0, 540))) c acc)
        [{ kode_dosen := "J", expertise := [], num_assignment := 0,
           used_timeslot := [] }]).headD
        { kode_dosen := "J", expertise := [], num_assignment := 0, used_timeslot := [] }) := by
  have h := (claim_C10_counter_matches_list
    [{ kode_dosen := "J", expertise := [], num_assignment := 0, used_timeslot := [] }]
    ["J"] (some (0, 540)) (by intro l hl; fin_cases hl; rfl)).1
  exact h _ (by decide)

/-- Claim C8: the committed duration is a pure function of the event type and
the group size, matching the spec's table (individual default per type,
per-size capstone durations for sizes 2-4, individual default for any other
group size). -/
theorem claim_C8_duration_pure (requests : List Request) (config : Config)
    (request_id : RequestId) (row : Request)
    (hfind : requests.find? (fun r => r.nim == firstNimOf request_id) = some row) :
    check_timeslot_needed requests config request_id =
      specDuration config row.rtype (groupSizeOf request_id) := by
  unfold check_timeslot_needed
  rw [hfind]
  cases request_id with
  | single n =>
      simp only [specDuration, groupSizeOf]
      by_cases ht : row.rtype = "Sidang Akhir" <;> simp [ht]
  | group ns =>
      simp only [specDuration, groupSizeOf]
      by_cases ht : row.rtype = "Sidang Akhir" <;>
        rcases hn : ns.length with _ | _ | _ | _ | _ | k <;>
          simp [ht, hn]

theorem claim_C8_witness :
    check_timeslot_needed cx2wSt.requests cfgD2 (RequestId.single "W") =
      specDuration cfgD2 cx2wReq.rtype (groupSizeOf (RequestId.single "W")) :=
  claim_C8_duration_pure cx2wSt.requests cfgD2 (RequestId.single "W") cx2wReq rfl

/-- Claim C1 (code bug): after Round 1 on `cx1St`, judge J1's committed-slot
list holds the two start slots 09:00 and 09:30 while both events require two
consecutive 30-minute slots, so the two committed ranges overlap at 09:30 —
nothing in the scheduler prevents committing a judge to overlapping ranges. -/
theorem claim_C1_overlap_bug :
    (round1 cx1St).toOption.map
        (fun st2 => (findLecturer st2 "J1").map (fun l => l.used_timeslot)) =
      some (some [(0, 540), (0, 570)]) ∧
    check_timeslot_needed cx1St.requests cx1St.config (RequestId.single "A1") = 2 ∧
    check_timeslot_needed cx1St.requests cx1St.config (RequestId.single "A2") = 2 ∧
    slotRangesOverlap 2 (0, 540) (0, 570) = true :=
  ⟨rfl, rfl, rfl, rfl⟩

/-- Claim C4 (code bug): Round 2 ranks the full pool without removing the
request's assigned actors, so on `cx4St` the request ends the run fully
scheduled with its own supervisor S as examiner_1. -/
theorem claim_C4_supervisor_examiner_bug :
    (run cx4St true).toOption.map
        (fun st2 => st2.requests.map
          (fun r => (r.date_time, r.examiner_1, r.examiner_2, r.spv_1))) =
      some [(some (0, 540), some "S", some "J", some "S")] :=
  rfl

/-- Claim C6 (code bug): the capstone group `cx6Group` disagrees on `field_1`,
yet `_verify_capstone_integrity` raises nothing (its third pandas clause
accepts any all-non-null column when the group's index labels are 0..n-1), and
the whole run completes without a data-integrity error. -/
theorem claim_C6_integrity_bug :
    cx6Group.map (fun r => r.field_1) = [some "F", some "H"] ∧
    verify_capstone_integrity cx6Group "G" = Except.ok () ∧
    run cx6St true = Except.ok cx6St :=
  ⟨rfl, rfl, rfl⟩

/-- Claim C2 counterexample: request `cx2Req` enters Round 1 with examiner_1
pre-filled ("E"); its Round-1 attempt commits nothing, yet the rollback wipes
the pre-filled examiner_1, so the request exits Round 1 neither fully
scheduled nor with its state restored. -/
theorem claim_C2_rollback_counterexample :
    cx2St.requests.map (fun r => r.examiner_1) = [some "E"] ∧
    (processRound1 cx2St [] cx2Req).toOption.map
        (fun p => (p.1.requests.map (fun r => r.examiner_1),
                   p.1.requests.map (fun r => r.date_time))) =
      some ([none], [none]) :=
  ⟨rfl, rfl⟩

/-- Claim C3 counterexample: on `cx3St` the committed start slot is 09:00 with
selected second examiner L2, but L2 is not available at 09:00 for the required
duration — the committed slot is only checked against the assigned actors and
the best-ranked candidate, not against every selected examiner. -/
theorem claim_C3_slot_counterexample :
    (processRound1 cx3St [] cx3Req).toOption.map
        (fun p => p.1.requests.map (fun r => (r.date_time, r.examiner_2))) =
      some [(some (0, 540), some "L2")] ∧
    (findAvailRow cx3St "L2").map (fun a => availForDuration cx3St a (0, 540) 1) =
      some false ∧
    check_timeslot_needed cx3St.requests cx3St.config (RequestId.single "B") = 1 :=
  ⟨rfl, rfl, rfl⟩

theorem length_filter_le_of_imp {α : Type} {l : List α} {p q : α → Bool}
    (himp : ∀ a ∈ l, p a = true → q a = true) :
    (l.filter p).length ≤ (l.filter q).length := by
  induction l with
  | nil => simp
  | cons y ys ih =>
      have ihys := ih fun a ha => himp a (by simp [ha])
      by_cases hp : p y = true
      · have hq := himp y (by simp) hp
        simp only [List.filter_cons, hp, hq, if_true, List.length_cons]
        exact Nat.succ_le_succ ihys
      · by_cases hq : q y = true
        · simp only [List.filter_cons, hp, hq, if_true, if_false, Bool.false_eq_true,
            List.length_cons]
          exact Nat.le_succ_of_le ihys
        · simp only [List.filter_cons, hp, hq, Bool.false_eq_true, if_false]
          exact ihys

theorem length_filter_lt_of_mem {α : Type} {l : List α} {p q : α → Bool} {x : α}
    (hx : x ∈ l) (hpx : p x = false) (hqx : q x = true)
    (himp : ∀ a, p a = true → q a = true) :
    (l.filter p).length < (l.filter q).length := by
  induction l with
  | nil => cases hx
  | cons y ys ih =>
      rcases List.mem_cons.mp hx with h | h
      · subst h
        simp only [List.filter_cons, hpx, hqx, if_true, Bool.false_eq_true, if_false,
          List.length_cons]
        exact Nat.lt_succ_of_le (length_filter_le_of_imp fun a _ => himp a)
      · by_cases hp : p y = true
        · have hq := himp y hp
          simp only [List.filter_cons, hp, hq, if_true, List.length_cons]
          exact Nat.succ_lt_succ (ih h)
        · by_cases hq : q y = true
          · simp only [List.filter_cons, hp, hq, if_true, Bool.false_eq_true, if_false,
              List.length_cons]
            exact Nat.lt_succ_of_lt (ih h)
          · simp only [List.filter_cons, hp, hq, Bool.false_eq_true, if_false]
            exact ih h

/-- Claim C5: `_calculate_criteria_scores` first drops every candidate with
zero availability matches, then gives each survivor the total
`A_score + 4*B_score + C_score` (doubled in Round 2 on an expertise match),
where each criterion score is a rank assigning strictly higher values to fewer
matches (A), fewer current assignments (B) and fewer overall available slots
(C), ranked within the surviving set. -/
theorem claim_C5_scoring (st : Sched) (pool : List String)
    (available_timeslots : List Slot) (required_duration : Nat)
    (request : Request) (round_num : Nat) :
    ((calculate_criteria_scores st pool available_timeslots required_duration
        request round_num).map (fun row => row.toRawScore) =
      keptScores st pool available_timeslots required_duration request round_num) ∧
    (∀ row ∈ calculate_criteria_scores st pool available_timeslots required_duration
        request round_num, 0 < row.criteria_a_matches) ∧
    (∀ row ∈ calculate_criteria_scores st pool available_timeslots required_duration
        request round_num,
      row.total_score =
        (if round_num == 2 && row.expertise_match then 2 else 1) *
          (aScore (keptScores st pool available_timeslots required_duration request
              round_num) row.toRawScore +
            4 * bScore (keptScores st pool available_timeslots required_duration request
              round_num) row.toRawScore +
            cScore (keptScores st pool available_timeslots required_duration request
              round_num) row.toRawScore)) ∧
    (∀ x ∈ keptScores st pool available_timeslots required_duration request round_num,
      ∀ y ∈ keptScores st pool available_timeslots required_duration request round_num,
        (x.criteria_a_matches < y.criteria_a_matches →
          aScore (keptScores st pool available_timeslots required_duration request
            round_num) y <
          aScore (keptScores st pool available_timeslots required_duration request
            round_num) x) ∧
        (x.criteria_b_assignments < y.criteria_b_assignments →
          bScore (keptScores st pool available_timeslots required_duration request
            round_num) y <
          bScore (keptScores st pool available_timeslots required_duration request
            round_num) x) ∧
        (x.criteria_c_availability < y.criteria_c_availability →
          cScore (keptScores st pool available_timeslots required_duration request
            round_num) y <
          cScore (keptScores st pool available_timeslots required_duration request
            round_num) x)) := by
  refine ⟨?_, ?_, ?_, ?_⟩
  · unfold calculate_criteria_scores
    rw [List.map_map]
    exact List.map_id'' (fun x => rfl) _
  · intro row hrow
    unfold calculate_criteria_scores at hrow
    obtain ⟨x, hx, hrow⟩ := List.mem_map.mp hrow
    have hx2 := (List.mem_filter.mp hx).2
    subst hrow
    simpa using hx2
  · intro row hrow
    unfold calculate_criteria_scores at hrow
    obtain ⟨x, hx, hrow⟩ := List.mem_map.mp hrow
    subst hrow
    show totalScore round_num _ x = _
    unfold totalScore
    by_cases hc : (round_num == 2 && x.expertise_match) = true
    · simp [hc]
    · simp only [Bool.not_eq_true] at hc
      simp [hc]
  · intro x hx y hy
    refine ⟨?_, ?_, ?_⟩
    · intro hlt
      unfold aScore
      exact length_filter_lt_of_mem hx
        (by simpa using Nat.not_le.mpr hlt)
        (by simp)
        (fun a ha => by
          simp only [decide_eq_true_eq] at ha ⊢
          exact le_trans (le_of_lt hlt) ha)
    · intro hlt
      unfold bScore
      refine Nat.add_lt_add_left ?_ 1
      exact length_filter_lt_of_mem hy
        (by simp)
        (by simpa using hlt)
        (fun a ha => by
          simp only [decide_eq_true_eq] at ha ⊢
          exact lt_trans hlt ha)
    · intro hlt
      unfold cScore
      refine Nat.add_lt_add_left ?_ 1
      exact length_filter_lt_of_mem hy
        (by simp)
        (by simpa using hlt)
        (fun a ha => by
          simp only [decide_eq_true_eq] at ha ⊢
          exact lt_trans hlt ha)

theorem claim_C5_witness :
    (calculate_criteria_scores cx4St ["S", "J"] [(0, 540)] 1 cx4Req 2).map
        (fun row => row.toRawScore) =
      keptScores cx4St ["S", "J"] [(0, 540)] 1 cx4Req 2 :=
  (claim_C5_scoring cx4St ["S", "J"] [(0, 540)] 1 cx4Req 2).1

theorem rowPreserved_refl (r : BoardRow) : rowPreserved r r :=
  ⟨rfl, rfl, fun _ _ => rfl⟩

theorem rowPreserved_trans {a b c : BoardRow} (h1 : rowPreserved a b)
    (h2 : rowPreserved b c) : rowPreserved a c := by
  obtain ⟨hs1, hl1, hp1⟩ := h1
  obtain ⟨hs2, hl2, hp2⟩ := h2
  refine ⟨hs2.trans hs1, hl2.trans hl1, fun j hj => ?_⟩
  have hb := hp1 j hj
  have hc := hp2 j (by rw [hb]; exact hj)
  rw [hc, hb]

theorem forall₂_rowPreserved_refl :
    ∀ l : List BoardRow, List.Forall₂ rowPreserved l l
  | [] => List.Forall₂.nil
  | r :: rs => List.Forall₂.cons (rowPreserved_refl r) (forall₂_rowPreserved_refl rs)

theorem forall₂_rowPreserved_trans {a b c : List BoardRow}
    (h1 : List.Forall₂ rowPreserved a b) (h2 : List.Forall₂ rowPreserved b c) :
    List.Forall₂ rowPreserved a c := by
  induction h1 generalizing c with
  | nil => cases h2; exact List.Forall₂.nil
  | cons hr hrest ih =>
      cases h2 with
      | cons hr2 hrest2 => exact List.Forall₂.cons (rowPreserved_trans hr hr2) (ih hrest2)

theorem writeFirstFree_spec (name : String) :
    ∀ (cols cols2 : List String), writeFirstFree name cols = some cols2 →
      cols2.length = cols.length ∧
        ∀ j, cols.get? j ≠ some "none" → cols2.get? j = cols.get? j := by
  intro cols
  induction cols with
  | nil => intro cols2 h; cases h
  | cons c cs ih =>
      intro cols2 h
      simp only [writeFirstFree] at h
      split at h
      case isTrue hc =>
        cases h
        refine ⟨by simp, fun j hj => ?_⟩
        cases j with
        | zero =>
            exfalso
            apply hj
            have : c = "none" := by simpa using hc
            simp [this]
        | succ j => simp
      case isFalse hc =>
        cases hw : writeFirstFree name cs with
        | none => rw [hw] at h; cases h
        | some cs2 =>
            rw [hw] at h
            simp only [Option.map_some'] at h
            cases h
            obtain ⟨hl, hp⟩ := ih cs2 hw
            refine ⟨by simp [hl], fun j hj => ?_⟩
            cases j with
            | zero => rfl
            | succ j => exact hp j (by simpa using hj)

theorem boardReserveAt_spec (name : String) (s : Slot) :
    ∀ (board board2 : List BoardRow), boardReserveAt board s name = some board2 →
      List.Forall₂ rowPreserved board board2 := by
  intro board
  induction board with
  | nil => intro b2 h; cases h
  | cons r rs ih =>
      intro b2 h
      simp only [boardReserveAt] at h
      split at h
      case isTrue hs =>
        cases hw : writeFirstFree name r.cols with
        | none => rw [hw] at h; cases h
        | some cols2 =>
            rw [hw] at h
            simp only [Option.map_some'] at h
            cases h
            obtain ⟨hl, hp⟩ := writeFirstFree_spec name r.cols cols2 hw
            exact List.Forall₂.cons ⟨rfl, hl, hp⟩ (forall₂_rowPreserved_refl rs)
      case isFalse hs =>
        cases hw : boardReserveAt rs s name with
        | none => rw [hw] at h; cases h
        | some rs2 =>
            rw [hw] at h
            simp only [Option.map_some'] at h
            cases h
            exact List.Forall₂.cons (rowPreserved_refl r) (ih rs2 hw)

theorem assign_consecutive_preserved (name : String) :
    ∀ (duration : Nat) (board : List BoardRow) (day startMin : Nat),
      List.Forall₂ rowPreserved board
        (assign_consecutive_timeslots board day startMin duration name) := by
  intro duration
  induction duration with
  | zero => intro board day m; exact forall₂_rowPreserved_refl board
  | succ d ih =>
      intro board day m
      simp only [assign_consecutive_timeslots]
      cases hw : boardReserveAt board (day, m) name with
      | none => exact forall₂_rowPreserved_refl board
      | some board2 =>
          exact forall₂_rowPreserved_trans
            (boardReserveAt_spec name (day, m) board board2 hw) (ih board2 day (m + 30))

theorem forall₂_mem_right {R : BoardRow → BoardRow → Prop} {l1 l2 : List BoardRow}
    (h : List.Forall₂ R l1 l2) : ∀ r2 ∈ l2, ∃ r1 ∈ l1, R r1 r2 := by
  induction h with
  | nil => intro r2 h2; cases h2
  | cons hr hrest ih =>
      intro r2 h2
      rcases List.mem_cons.mp h2 with h2 | h2
      · subst h2; exact ⟨_, by simp, hr⟩
      · obtain ⟨r1, hr1, hR⟩ := ih r2 h2
        exact ⟨r1, by simp [hr1], hR⟩

/-- Claim C7: a board reservation only writes into columns currently holding
"none" (every occupied cell is preserved, with the slot key and the column
count unchanged), so when every row has at most `parallel_capacity` columns,
the occupied-column count never exceeds `parallel_capacity` during and after a
reservation. -/
theorem claim_C7_capacity (board : List BoardRow) (day startMin duration : Nat)
    (name : String) (cap : Nat) (hcap : ∀ r ∈ board, r.cols.length ≤ cap) :
    List.Forall₂ rowPreserved board
      (assign_consecutive_timeslots board day startMin duration name) ∧
    ∀ r2 ∈ assign_consecutive_timeslots board day startMin duration name,
      occupiedCount r2 ≤ cap := by
  have hpres := assign_consecutive_preserved name duration board day startMin
  refine ⟨hpres, fun r2 h2 => ?_⟩
  obtain ⟨r1, hr1, hR⟩ := forall₂_mem_right hpres r2 h2
  calc occupiedCount r2 ≤ r2.cols.length := List.length_filter_le _ _
    _ = r1.cols.length := hR.2.1
    _ ≤ cap := hcap r1 hr1

theorem claim_C7_witness :
    occupiedCount
      ((assign_consecutive_timeslots
          [{ slot := (0, 540), cols := ["none", "none"] }] 0 540 1 "X").headD
        { slot := (0, 540), cols := [] }) ≤ 2 := by
  have h := (claim_C7_capacity [{ slot := (0, 540), cols := ["none", "none"] }]
    0 540 1 "X" 2 (by decide)).2
  exact h _ (by decide)

theorem slot_contains_iff {l : List Slot} {x : Slot} : l.contains x = true ↔ x ∈ l := by
  simp [List.contains]

theorem availForDuration_iff (st : Sched) (a : AvailRow) :
    ∀ (d : Nat) (s : Slot), availForDuration st a s d = true ↔
      ∀ j < d, st.timeCols.contains (nextTimeslot^[j] s) = true ∧
        a.availTrue.contains (nextTimeslot^[j] s) = true := by
  intro d
  induction d with
  | zero => intro s; simp [availForDuration]
  | succ d ih =>
      intro s
      simp only [availForDuration, Bool.and_eq_true]
      constructor
      · rintro ⟨⟨h1, h2⟩, hrest⟩ j hj
        cases j with
        | zero => simpa only [Function.iterate_zero_apply] using ⟨h1, h2⟩
        | succ j =>
            have hstep := (ih (nextTimeslot s)).mp hrest j (Nat.lt_of_succ_lt_succ hj)
            simpa [Function.iterate_succ_apply] using hstep
      · intro h
        refine ⟨⟨?_, ?_⟩, ?_⟩
        · simpa using (h 0 (Nat.succ_pos d)).1
        · simpa using (h 0 (Nat.succ_pos d)).2
        · refine (ih (nextTimeslot s)).mpr fun j hj => ?_
          have hstep := h (j + 1) (Nat.succ_lt_succ hj)
          simpa [Function.iterate_succ_apply] using hstep

theorem chainOk_mem : ∀ (rest : List Slot) (d : Nat) (x : Slot),
    chainOk d (x :: rest) = true → ∀ j, j < d → nextTimeslot^[j] x ∈ x :: rest := by
  intro rest
  induction rest with
  | nil =>
      intro d x h j hj
      have hj0 : j = 0 := by
        rcases d with _ | _ | d
        · omega
        · omega
        · exact absurd h (by simp [chainOk])
      subst hj0
      simp
  | cons y rest ih =>
      intro d x h j hj
      rcases d with _ | _ | d
      · omega
      · have hj0 : j = 0 := by omega
        subst hj0
        simp
      · have h2 : (nextTimeslot x == y) = true ∧ chainOk (d + 1) (y :: rest) = true := by
          simpa [chainOk, Bool.and_eq_true] using h
        rcases j with _ | j
        · simp
        · have hy : nextTimeslot x = y := by simpa using h2.1
          have hmem : nextTimeslot^[j] y ∈ y :: rest := ih (d + 1) y h2.2 j (by omega)
          have heq : nextTimeslot^[j + 1] x = nextTimeslot^[j] y := by
            rw [Function.iterate_succ_apply, hy]
          rw [heq]
          exact List.mem_cons_of_mem x hmem

theorem consecutiveStarts_mem : ∀ (l : List Slot) (d : Nat) (s : Slot),
    s ∈ consecutiveStarts d l → ∀ j < d, nextTimeslot^[j] s ∈ l := by
  intro l
  induction l with
  | nil => intro d s h; cases h
  | cons x rest ih =>
      intro d s h j hj
      simp only [consecutiveStarts, List.mem_append] at h
      rcases h with h | h
      · split at h
        case isTrue hck =>
          have hsx : s = x := by simpa using h
          subst hsx
          exact chainOk_mem rest d s hck j hj
        case isFalse => cases h
      · exact List.mem_cons_of_mem x (ih d s h j hj)

theorem get_consecutive_timeslots_mem (timeslots : List Slot) (d : Nat) (s : Slot)
    (h : s ∈ get_consecutive_timeslots timeslots d) :
    ∀ j < d, nextTimeslot^[j] s ∈ timeslots := by
  intro j hj
  unfold get_consecutive_timeslots at h
  split at h
  · cases h
  · have hmem := consecutiveStarts_mem _ d s h j hj
    unfold sortTimeslotsChronologically at hmem
    exact (List.Perm.mem_iff (List.perm_insertionSort slotLE timeslots)).mp hmem

theorem avail_of_consec (st : Sched) (a : AvailRow) (d : Nat) (s : Slot)
    (h : s ∈ get_consecutive_timeslots (availableSlotsOf st a) d) :
    availForDuration st a s d = true := by
  refine (availForDuration_iff st a d s).mpr fun j hj => ?_
  have hmem := get_consecutive_timeslots_mem _ d s h j hj
  unfold availableSlotsOf at hmem
  have h1 := List.mem_filter.mp hmem
  exact ⟨slot_contains_iff.mpr h1.1, h1.2⟩

theorem foldl_filter_mem {s : Slot} :
    ∀ (others : List (List Slot)) (first : List Slot),
      s ∈ others.foldl (fun acc l => acc.filter (fun x => l.contains x)) first →
      s ∈ first ∧ ∀ l ∈ others, s ∈ l := by
  intro others
  induction others with
  | nil => intro first h; exact ⟨h, by simp⟩
  | cons l0 ls ih =>
      intro first h
      simp only [List.foldl_cons] at h
      obtain ⟨h1, h2⟩ := ih _ h
      have h3 := List.mem_filter.mp h1
      refine ⟨h3.1, fun l hl => ?_⟩
      rcases List.mem_cons.mp hl with hl | hl
      · subst hl
        exact slot_contains_iff.mp h3.2
      · exact h2 l hl

theorem assigned_avail_mem (st : Sched) (request : Request)
    (assigned_actors : List String) (d : Nat) (s : Slot)
    (h : s ∈ get_assigned_actor_availability st request assigned_actors d) :
    ∀ code ∈ assignedActorCodes request assigned_actors,
      ∀ a, findAvailRow st code = some a → availForDuration st a s d = true := by
  intro code hcode a ha
  simp only [get_assigned_actor_availability] at h
  split at h
  case isTrue hemp =>
      exfalso
      unfold assignedActorCodes at hcode
      rw [List.isEmpty_iff] at hemp
      rw [hemp] at hcode
      cases hcode
  case isFalse =>
      split at h
      case isTrue hemp =>
          exfalso
          rw [List.isEmpty_iff] at hemp
          rw [hemp] at hcode
          cases hcode
      case isFalse hemp =>
          have hlist : get_consecutive_timeslots (availableSlotsOf st a) d ∈
              (assignedActorCodes request assigned_actors).filterMap (fun c =>
                (findAvailRow st c).map (fun a2 =>
                  get_consecutive_timeslots (availableSlotsOf st a2) d)) := by
            refine List.mem_filterMap.mpr ⟨code, hcode, ?_⟩
            rw [ha]
            rfl
          revert h hlist
          cases hp : (assignedActorCodes request assigned_actors).filterMap (fun c =>
              (findAvailRow st c).map (fun a2 =>
                get_consecutive_timeslots (availableSlotsOf st a2) d)) with
          | nil => intro h hlist; cases hlist
          | cons first others =>
              intro h hlist
              obtain ⟨h1, h2⟩ := foldl_filter_mem others first h
              rcases List.mem_cons.mp hlist with hl | hl
              · rw [← hl] at h1
                exact avail_of_consec st a d s h1
              · exact avail_of_consec st a d s (h2 _ hl)

theorem rawScore_kode (st : Sched) (avail : List Slot) (d : Nat) (r : Request)
    (n : Nat) (code : String) : (rawScore st avail d r n code).kode_dosen = code := rfl

theorem rawScore_matched (st : Sched) (avail : List Slot) (d : Nat) (r : Request)
    (n : Nat) (code : String) :
    (rawScore st avail d r n code).matched_timeslots =
      match findAvailRow st code with
      | none => []
      | some a => avail.filter (fun s => availForDuration st a s d) := by
  unfold rawScore
  cases findAvailRow st code <;> rfl

theorem calculate_matched_mem (st : Sched) (pool : List String)
    (available_timeslots : List Slot) (d : Nat) (request : Request) (round_num : Nat)
    (row : ScoreRow)
    (hrow : row ∈
      calculate_criteria_scores st pool available_timeslots d request round_num)
    (s : Slot) (hs : s ∈ row.matched_timeslots) :
    s ∈ available_timeslots ∧
      ∀ a, findAvailRow st row.kode_dosen = some a →
        availForDuration st a s d = true := by
  unfold calculate_criteria_scores at hrow
  obtain ⟨x, hx, heq⟩ := List.mem_map.mp hrow
  have hmt : row.matched_timeslots = x.matched_timeslots := by rw [← heq]
  have hkd : row.kode_dosen = x.kode_dosen := by rw [← heq]
  rw [hmt] at hs
  unfold keptScores at hx
  have hx1 := (List.mem_filter.mp hx).1
  obtain ⟨code, hcode, hxeq⟩ := List.mem_map.mp hx1
  rw [← hxeq] at hs
  rw [rawScore_matched] at hs
  rw [hkd, ← hxeq, rawScore_kode]
  cases hfa : findAvailRow st code with
  | none => rw [hfa] at hs; cases hs
  | some a0 =>
      rw [hfa] at hs
      have h2 := List.mem_filter.mp hs
      refine ⟨h2.1, fun a ha => ?_⟩
      injection ha with ha2
      rw [← ha2]
      exact h2.2

theorem selectExaminers_datetime_best {request : Request} {ranked : List ScoreRow}
    {round_num : Nat} {sel : Selection} {s : Slot}
    (hsel : selectExaminers request ranked round_num = some sel)
    (hdt : sel.assigned_datetime = some s) :
    ∃ best rest2, sortByScore ranked = best :: rest2 ∧ s ∈ best.matched_timeslots := by
  simp only [selectExaminers] at hsel
  split at hsel
  · cases hsel
  case isFalse hne =>
    split at hsel
    · revert hsel
      cases hs0 : sortByScore ranked with
      | nil => intro hsel; cases hsel
      | cons best rest =>
          intro hsel
          cases hsel
          exact ⟨best, rest, rfl, List.mem_of_mem_head? hdt⟩
    · split at hsel
      · cases hsel
      · split at hsel
        · cases hsel
        · revert hsel
          cases ht : (sortByScore ranked).take (numExaminersNeeded request) with
          | nil => intro hsel; cases hsel
          | cons first restSel =>
              intro hsel
              cases hsel
              refine ⟨first,
                restSel ++ (sortByScore ranked).drop (numExaminersNeeded request), ?_,
                List.mem_of_mem_head? hdt⟩
              conv_lhs => rw [← List.take_append_drop (numExaminersNeeded request)
                (sortByScore ranked)]
              rw [ht]
              rfl

/-- Claim C3 (amended): a committed start slot `s` is always board-free for the
whole duration, inside the common availability of the already-assigned actors,
and is read from the matched-slot list of the BEST-ranked candidate — the head
of the descending sort, whose total score is maximal over the ranked pool and
who is available at `s` for the whole duration.  Only that one candidate is
checked, not every selected examiner. -/
theorem claim_C3_amended (st : Sched) (pool : List String) (request : Request)
    (assigned_actors : List String) (round_num : Nat) (cs : Option String)
    (request_id : RequestId) (avail : List Slot) (ranked : List ScoreRow)
    (sel : Selection) (s : Slot)
    (hcc : check_capstone st request = Except.ok (cs, request_id))
    (hrank : rank_lecturer st pool request assigned_actors round_num =
      Except.ok (avail, ranked))
    (hsel : selectExaminers request ranked round_num = some sel)
    (hdt : sel.assigned_datetime = some s) :
    freeForDuration st s
      (check_timeslot_needed st.requests st.config request_id) = true ∧
    (∀ code ∈ assignedActorCodes request assigned_actors,
      ∀ a, findAvailRow st code = some a →
        availForDuration st a s
          (check_timeslot_needed st.requests st.config request_id) = true) ∧
    (∃ best rest2, sortByScore ranked = best :: rest2 ∧
      s ∈ best.matched_timeslots ∧
      (∀ row2 ∈ ranked, row2.total_score ≤ best.total_score) ∧
      ∀ a, findAvailRow st best.kode_dosen = some a →
        availForDuration st a s
          (check_timeslot_needed st.requests st.config request_id) = true) := by
  simp only [rank_lecturer, hcc] at hrank
  obtain ⟨best, rest2, hsort, hsbest⟩ := selectExaminers_datetime_best hsel hdt
  have hbestranked : best ∈ ranked := by
    have hb : best ∈ sortByScore ranked := by rw [hsort]; simp
    exact (List.Perm.mem_iff (List.perm_insertionSort scoreGE ranked)).mp hb
  have hscored : best ∈ calculate_criteria_scores st pool
      (get_free_timeslots st
        (get_assigned_actor_availability st request assigned_actors
          (check_timeslot_needed st.requests st.config request_id))
        (check_timeslot_needed st.requests st.config request_id))
      (check_timeslot_needed st.requests st.config request_id) request round_num := by
    split at hrank <;> cases hrank <;> first
      | exact hbestranked
      | exact (List.Perm.mem_iff (List.perm_insertionSort scoreGE _)).mp hbestranked
  obtain ⟨hsavail, hbestavail⟩ := calculate_matched_mem st pool _ _ request round_num
    best hscored s hsbest
  have h2 := List.mem_filter.mp hsavail
  have hmax : ∀ row2 ∈ ranked, row2.total_score ≤ best.total_score := by
    intro row2 hrow2
    have hs2 : row2 ∈ sortByScore ranked :=
      (List.Perm.mem_iff (List.perm_insertionSort scoreGE ranked)).mpr hrow2
    rw [hsort] at hs2
    rcases List.mem_cons.mp hs2 with h | h
    · subst h
      exact le_rfl
    · have hsorted : List.Sorted scoreGE (sortByScore ranked) :=
        List.sorted_insertionSort scoreGE ranked
      rw [hsort] at hsorted
      exact (List.sorted_cons.mp hsorted).1 row2 h
  exact ⟨h2.2, assigned_avail_mem st request assigned_actors _ s h2.1,
    best, rest2, hsort, hsbest, hmax, hbestavail⟩

theorem claim_C3_amended_witness :
    freeForDuration cx3St (0, 540)
      (check_timeslot_needed cx3St.requests cx3St.config (RequestId.single "B")) =
      true :=
  (claim_C3_amended cx3St ["L1", "L2"] cx3Req ["spv_1"] 1 none
    (RequestId.single "B") _ _ _ (0, 540) rfl rfl rfl rfl).1

theorem rawScore_matches_len (st : Sched) (avail : List Slot) (d : Nat) (r : Request)
    (n : Nat) (code : String) :
    (rawScore st avail d r n code).criteria_a_matches =
      (rawScore st avail d r n code).matched_timeslots.length := by
  unfold rawScore
  cases findAvailRow st code <;> rfl

theorem calculate_matched_ne_nil (st : Sched) (pool : List String) (avail : List Slot)
    (d : Nat) (request : Request) (round_num : Nat) (row : ScoreRow)
    (hrow : row ∈ calculate_criteria_scores st pool avail d request round_num) :
    row.matched_timeslots ≠ [] := by
  unfold calculate_criteria_scores at hrow
  obtain ⟨x, hx, heq⟩ := List.mem_map.mp hrow
  have hmt : row.matched_timeslots = x.matched_timeslots := by rw [← heq]
  have hpos := (List.mem_filter.mp hx).2
  have hx1 := (List.mem_filter.mp (by exact hx : x ∈ keptScores st pool avail d request round_num)).1
  obtain ⟨code, hcode, hxeq⟩ := List.mem_map.mp hx1
  have hlen : x.criteria_a_matches = x.matched_timeslots.length := by
    rw [← hxeq]
    exact rawScore_matches_len st avail d request round_num code
  rw [hmt]
  intro hnil
  rw [hnil] at hlen
  simp only [List.length_nil] at hlen
  simp only [decide_eq_true_eq] at hpos
  omega

theorem map_id_of_eq {α : Type} {l : List α} {g : α → α} (h : ∀ x ∈ l, g x = x) :
    l.map g = l := by
  induction l with
  | nil => rfl
  | cons x xs ih =>
      simp only [List.map_cons]
      rw [h x (by simp), ih fun y hy => h y (by simp [hy])]

theorem resetRow_id {r : Request} (h1 : r.examiner_1 = none) (h2 : r.examiner_2 = none)
    (h3 : r.date_time = none) (h4 : r.status = none) :
    ({ r with examiner_1 := none, examiner_2 := none, date_time := none, status := none } : Request) = r := by
  cases r
  simp_all

theorem find_label_self (l : List Request) (request : Request)
    (hmem : request ∈ l) (hnd : (l.map (fun r => r.label)).Nodup) :
    l.find? (fun r => r.label == request.label) = some request := by
  induction l with
  | nil => cases hmem
  | cons r rs ih =>
      rcases List.mem_cons.mp hmem with h | h
      · subst h
        simp [List.find?_cons]
      · rw [List.map_cons] at hnd
        obtain ⟨hr1, hr2⟩ := List.nodup_cons.mp hnd
        have hne : (r.label == request.label) = false := by
          apply beq_eq_false_iff_ne.mpr
          intro hc
          exact hr1 (hc ▸ List.mem_map_of_mem _ h)
        simp only [List.find?_cons, hne]
        exact ih h hr2

theorem find_label_map (l : List Request) (g : Request → Request)
    (hg : ∀ r, (g r).label = r.label) (L : Nat) :
    (l.map g).find? (fun r => r.label == L) =
      (l.find? (fun r => r.label == L)).map g := by
  induction l with
  | nil => rfl
  | cons r rs ih =>
      simp only [List.map_cons, List.find?_cons, hg r]
      cases hc : (r.label == L) with
      | true => rfl
      | false => exact ih

theorem capstoneMaskCode_some {request : Request} {c : String}
    (h : capstoneMaskCode request = some c) : request.capstone_code = some c := by
  cases hq : request.capstone_code with
  | none =>
      simp only [capstoneMaskCode, hq] at h
      exact h
  | some c2 =>
      simp only [capstoneMaskCode, hq] at h
      split at h
      · exact Option.noConfusion h
      · injection h with h2
        rw [h2]

theorem requestMask_self (request : Request) : requestMask request request = true := by
  unfold requestMask
  cases hcm : capstoneMaskCode request with
  | none => simp
  | some c =>
      have hc := capstoneMaskCode_some hcm
      simp [hc]

theorem reset_partial_id (st : Sched) (request : Request)
    (hmem : request ∈ st.requests)
    (hnims : (st.requests.map (fun r => r.nim)).Nodup)
    (he1 : request.examiner_1 = none) (he2 : request.examiner_2 = none)
    (hdt : request.date_time = none) (hst : request.status = none)
    (hgroup : ∀ r ∈ st.requests, r.capstone_code.isSome = true →
      r.capstone_code = request.capstone_code →
      r.examiner_1 = none ∧ r.examiner_2 = none ∧ r.date_time = none ∧
        r.status = none) :
    reset_partial_assignment st request = st := by
  have hreq : st.requests.map (fun r =>
      if requestMask request r then
        { r with examiner_1 := none, examiner_2 := none, date_time := none, status := none }
      else r) = st.requests := by
    apply map_id_of_eq
    intro r hr
    by_cases hmask : requestMask request r = true
    · rw [if_pos hmask]
      unfold requestMask at hmask
      cases hcm : capstoneMaskCode request with
      | none =>
          rw [hcm] at hmask
          have hrn : r.nim = request.nim := by simpa using hmask
          have hrr : r = request :=
            List.inj_on_of_nodup_map hnims hr hmem hrn
          rw [hrr]
          exact resetRow_id he1 he2 hdt hst
      | some c =>
          rw [hcm] at hmask
          have hrc : r.capstone_code = some c := by simpa using hmask
          have hreqc : request.capstone_code = some c := capstoneMaskCode_some hcm
          obtain ⟨h1, h2, h3, h4⟩ := hgroup r hr (by rw [hrc]; rfl)
            (by rw [hrc, hreqc])
          exact resetRow_id h1 h2 h3 h4
    · rw [if_neg hmask]
  simp only [reset_partial_assignment, he1, he2, hdt, List.append_nil, List.foldl_nil]
  rw [hreq]

theorem rank_lecturer_ok (st : Sched) (pool : List String) (request : Request)
    (assigned : List String) (round_num : Nat) (cs : Option String)
    (request_id : RequestId)
    (hcc : check_capstone st request = Except.ok (cs, request_id)) :
    ∃ av rk, rank_lecturer st pool request assigned round_num = Except.ok (av, rk) ∧
      ∀ row ∈ rk, row ∈ calculate_criteria_scores st pool
        (get_free_timeslots st
          (get_assigned_actor_availability st request assigned
            (check_timeslot_needed st.requests st.config request_id))
          (check_timeslot_needed st.requests st.config request_id))
        (check_timeslot_needed st.requests st.config request_id)
        request round_num := by
  simp only [rank_lecturer, hcc]
  split
  · exact ⟨_, _, rfl, fun row hrow => hrow⟩
  · exact ⟨_, _, rfl, fun row hrow =>
      (List.Perm.mem_iff (List.perm_insertionSort scoreGE _)).mp hrow⟩

theorem selectExaminers_round1_shape (request : Request) (ranked : List ScoreRow)
    (sel : Selection)
    (he1 : request.examiner_1 = none) (he2 : request.examiner_2 = none)
    (hsel : selectExaminers request ranked 1 = some sel) :
    ∃ first second, (∃ rest, sortByScore ranked = first :: second :: rest) ∧
      sel.examiner_codes = [first.kode_dosen, second.kode_dosen] ∧
      sel.assigned_datetime = first.matched_timeslots.head? ∧
      first ∈ ranked := by
  have hneed : numExaminersNeeded request = 2 := by
    simp [numExaminersNeeded, he1, he2]
  simp only [selectExaminers, hneed] at hsel
  split at hsel
  · cases hsel
  case isFalse hne =>
    rw [if_neg (by simp)] at hsel
    rw [if_neg (by simp)] at hsel
    split at hsel
    · cases hsel
    case isFalse hlen =>
      have hge : 2 ≤ (sortByScore ranked).length := by
        by_contra hlt
        push_neg at hlt
        exact hlen (by simp [hlt])
      revert hsel
      cases ht : (sortByScore ranked).take 2 with
      | nil => intro hsel; cases hsel
      | cons first restSel =>
          have hlen2 : (first :: restSel).length = 2 := by
            rw [← ht, List.length_take]
            omega
          cases restSel with
          | nil => simp at hlen2
          | cons second rest2 =>
              have hrest2 : rest2 = [] := by
                simp only [List.length_cons] at hlen2
                exact List.length_eq_zero.mp (by omega)
              subst hrest2
              intro hsel
              cases hsel
              have hsort : ∃ rest, sortByScore ranked = first :: second :: rest := by
                refine ⟨(sortByScore ranked).drop 2, ?_⟩
                conv_lhs => rw [← List.take_append_drop 2 (sortByScore ranked)]
                rw [ht]
                rfl
              have h1 : first ∈ (sortByScore ranked).take 2 := by rw [ht]; simp
              exact ⟨first, second, hsort, rfl, rfl,
                (List.Perm.mem_iff (List.perm_insertionSort scoreGE ranked)).mp
                  (List.mem_of_mem_take h1)⟩

theorem rank_lecturer_not_error (st : Sched) (pool : List String) (request : Request)
    (assigned : List String) (round_num : Nat) (e : String) (cs : Option String)
    (request_id : RequestId)
    (hcc : check_capstone st request = Except.ok (cs, request_id)) :
    ¬ rank_lecturer st pool request assigned round_num = Except.error e := by
  obtain ⟨av, rk, hrk, _⟩ :=
    rank_lecturer_ok st pool request assigned round_num cs request_id hcc
  rw [hrk]
  simp

theorem rank_lecturer_mem (st : Sched) (pool : List String) (request : Request)
    (assigned : List String) (round_num : Nat) (av : List Slot) (rk : List ScoreRow)
    (cs : Option String) (request_id : RequestId)
    (hcc : check_capstone st request = Except.ok (cs, request_id))
    (heq : rank_lecturer st pool request assigned round_num = Except.ok (av, rk)) :
    ∀ row ∈ rk, row ∈ calculate_criteria_scores st pool
      (get_free_timeslots st
        (get_assigned_actor_availability st request assigned
          (check_timeslot_needed st.requests st.config request_id))
        (check_timeslot_needed st.requests st.config request_id))
      (check_timeslot_needed st.requests st.config request_id)
      request round_num := by
  obtain ⟨av2, rk2, hrk2, hmem2⟩ :=
    rank_lecturer_ok st pool request assigned round_num cs request_id hcc
  rw [hrk2] at heq
  injection heq with heq2
  have hrkeq : rk2 = rk := congrArg Prod.snd heq2
  rw [← hrkeq]
  exact hmem2

theorem round1Attempt_atomic (st : Sched) (request : Request) (p : List String)
    (cs : Option String) (request_id : RequestId)
    (hmem : request ∈ st.requests)
    (hlabels : (st.requests.map (fun r => r.label)).Nodup)
    (hnims : (st.requests.map (fun r => r.nim)).Nodup)
    (he1 : request.examiner_1 = none) (he2 : request.examiner_2 = none)
    (hdt : request.date_time = none) (hst : request.status = none)
    (hgroup : ∀ r ∈ st.requests, r.capstone_code.isSome = true →
      r.capstone_code = request.capstone_code →
      r.examiner_1 = none ∧ r.examiner_2 = none ∧ r.date_time = none ∧
        r.status = none)
    (hcc : check_capstone st request = Except.ok (cs, request_id)) :
    ∃ st2, round1Attempt st p request = Except.ok (st2, p) ∧
      (st2 = st ∨ ∃ r2 ∈ st2.requests, r2.label = request.label ∧
        r2.examiner_1.isSome = true ∧ r2.examiner_2.isSome = true ∧
        r2.date_time.isSome = true) := by
  simp only [round1Attempt, hcc]
  split
  · exact ⟨st, rfl, Or.inl rfl⟩
  · split
    case h_1 e heq =>
      exact absurd heq (rank_lecturer_not_error st _ request _ 1 e cs request_id hcc)
    case h_2 pr av0 rk0 heq =>
      have hrkmem := rank_lecturer_mem st _ request _ 1 av0 rk0 cs request_id hcc heq
      cases hsel : selectExaminers request rk0 1 with
      | none =>
          have hassign : assign_actor st request rk0 request_id 1 = (st, false) := by
            simp only [assign_actor, hsel]
          simp only [hassign]
          rw [find_label_self st.requests request hmem hlabels]
          simp only [Option.getD_some, Bool.and_false, Bool.false_eq_true, if_false]
          rw [reset_partial_id st request hmem hnims he1 he2 hdt hst hgroup]
          exact ⟨st, rfl, Or.inl rfl⟩
      | some sel =>
          obtain ⟨first, second, ⟨rest, hsort⟩, hcodes, hdtsel, hfirstrk⟩ :=
            selectExaminers_round1_shape request rk0 sel he1 he2 hsel
          have hne := calculate_matched_ne_nil st _ _ _ request 1 first (hrkmem first hfirstrk)
          obtain ⟨s, hs⟩ : ∃ s, first.matched_timeslots.head? = some s := by
            cases hmt : first.matched_timeslots with
            | nil => exact absurd hmt hne
            | cons a l => exact ⟨a, rfl⟩
          have hdts : sel.assigned_datetime = some s := by rw [hdtsel, hs]
          set g : Request → Request := fun r =>
            if requestMask request r then
              applyAssignment request sel.examiner_codes (some s)
                (statusFor (numExaminersNeeded request) 1) r
            else r with hg
          have hmaskself : requestMask request request = true := requestMask_self request
          obtain ⟨st3, hst1, hst2⟩ : ∃ st3,
              assign_actor st request rk0 request_id 1 = (st3, true) ∧
              st3.requests = st.requests.map g := by
            refine ⟨(assign_actor st request rk0 request_id 1).1, ?_, ?_⟩
            · have h2 : (assign_actor st request rk0 request_id 1).2 = true := by
                simp only [assign_actor, hsel]
              exact Prod.ext rfl h2
            · simp only [assign_actor, hsel]
              rw [hdts]
          have hglabel : ∀ r, (g r).label = r.label := by
            intro r
            simp only [hg]
            by_cases hm : requestMask request r = true
            · rw [if_pos hm]
              rfl
            · rw [if_neg hm]
          have hupd : (st3.requests.find? (fun r => r.label == request.label)).getD request =
              g request := by
            rw [hst2, find_label_map st.requests g hglabel request.label,
              find_label_self st.requests request hmem hlabels]
            rfl
          have hge1 : (g request).examiner_1 = some first.kode_dosen := by
            simp only [hg]
            rw [if_pos hmaskself]
            simp [applyAssignment, examinerWrites, hcodes, he1, he2]
          have hge2 : (g request).examiner_2 = some second.kode_dosen := by
            simp only [hg]
            rw [if_pos hmaskself]
            simp [applyAssignment, examinerWrites, hcodes, he1, he2]
          have hgdt : (g request).date_time = some s := by
            simp only [hg]
            rw [if_pos hmaskself]
            simp [applyAssignment]
          simp only [hst1]
          rw [hupd]
          simp only [hge1, hge2, Option.isSome_some, Bool.and_true, Bool.and_self, if_true]
          refine ⟨st3, rfl, Or.inr ⟨g request, ?_, hglabel request, ?_, ?_, ?_⟩⟩
          · rw [hst2]
            exact List.mem_map_of_mem g hmem
          · rw [hge1]; rfl
          · rw [hge2]; rfl
          · rw [hgdt]; rfl

/-- Claim C2 (amended): for a request that enters Round 1 with both examiner
fields empty (and empty slot and status) — and, when it belongs to a capstone
group, with every row of that group likewise empty and the group passing the
integrity check — Round-1 processing is atomic: the request exits Round 1
either with the whole state exactly unchanged, or fully scheduled (both
examiner columns and the slot set on its row).  The pre-filled-examiner case
the counterexample exhibits is excluded: there the rollback destroys upstream
data. -/
theorem claim_C2_amended (st : Sched) (request : Request) (processed : List String)
    (cs : Option String) (request_id : RequestId)
    (hmem : request ∈ st.requests)
    (hlabels : (st.requests.map (fun r => r.label)).Nodup)
    (hnims : (st.requests.map (fun r => r.nim)).Nodup)
    (he1 : request.examiner_1 = none) (he2 : request.examiner_2 = none)
    (hdt : request.date_time = none) (hst : request.status = none)
    (hgroup : ∀ r ∈ st.requests, r.capstone_code.isSome = true →
      r.capstone_code = request.capstone_code →
      r.examiner_1 = none ∧ r.examiner_2 = none ∧ r.date_time = none ∧
        r.status = none)
    (hcc : check_capstone st request = Except.ok (cs, request_id)) :
    ∃ st2 p2, processRound1 st processed request = Except.ok (st2, p2) ∧
      (st2 = st ∨ ∃ r2 ∈ st2.requests, r2.label = request.label ∧
        r2.examiner_1.isSome = true ∧ r2.examiner_2.isSome = true ∧
        r2.date_time.isSome = true) := by
  simp only [processRound1, hdt, Option.isSome_none, Bool.false_eq_true, if_false]
  cases hcap : request.capstone_code with
  | none =>
      obtain ⟨st2, h1, h2⟩ := round1Attempt_atomic st request processed cs request_id
        hmem hlabels hnims he1 he2 hdt hst hgroup hcc
      exact ⟨st2, processed, h1, h2⟩
  | some code =>
      cases hproc : processed.contains code with
      | true =>
          simp only [hproc, if_true]
          exact ⟨st, processed, rfl, Or.inl rfl⟩
      | false =>
          simp only [hproc, Bool.false_eq_true, if_false]
          obtain ⟨st2, h1, h2⟩ := round1Attempt_atomic st request (processed ++ [code])
            cs request_id hmem hlabels hnims he1 he2 hdt hst hgroup hcc
          exact ⟨st2, processed ++ [code], h1, h2⟩

theorem claim_C2_amended_witness :
    cx2cReqA ∈ cx2cSt.requests ∧
    ∃ st2 p2, processRound1 cx2cSt [] cx2cReqA = Except.ok (st2, p2) ∧
      (st2 = cx2cSt ∨ ∃ r2 ∈ st2.requests, r2.label = cx2cReqA.label ∧
        r2.examiner_1.isSome = true ∧ r2.examiner_2.isSome = true ∧
        r2.date_time.isSome = true) :=
  ⟨by decide, claim_C2_amended cx2cSt cx2cReqA [] (some "K")
    (RequestId.group ["WA", "WB"]) (by decide) (by decide) (by decide) (by decide)
    (by decide) (by decide) (by decide) (by decide) rfl⟩

end ThesisSched
